import Mathlib

set_option maxRecDepth 4096

/-!
Verification of the peripheral-transport / file-transfer core of the
BlockCodeLab/scratch-vm repository.

The development shallowly embeds the relevant JavaScript source:

* `src/src/util/ymodem.js` — CRC16, packet framing, buffer splitting and the
  Ymodem-style transfer state machine (`transfer`).
* `src/src/io/web-serial.js` — the Web Serial transport: `disconnect`,
  `handleDisconnectError`, and `write` (hex encoding and 255-byte chunking).

Bytes are modelled as `Nat` (always below 256 where the code guarantees it),
buffers as `List Nat`, and the stateful transfer closure as an explicit state
record with a byte-at-a-time step function.  JavaScript 32-bit arithmetic is
faithful here because every value the code manipulates stays below 2^16 and
each shift is explicitly masked with `& 0xffff` in the source.
-/

namespace ScratchVM

/-! ### CRC16 (src/src/util/ymodem.js, lines 14-28) -/

/-- One iteration of the `for` loop of `crc16` in ymodem.js: the widening
byte-at-a-time, table-free CRC computation.  The `let` chain mirrors the
source's sequential reassignments of `code` and `crc` exactly. -/
def crc16Step (crc b : Nat) : Nat :=
  let code0 := (crc >>> 8) &&& 0xff
  let code1 := code0 ^^^ (b &&& 0xff)
  let code2 := code1 ^^^ (code1 >>> 4)
  let crc1 := (crc <<< 8) &&& 0xffff
  let crc2 := crc1 ^^^ code2
  let code3 := (code2 <<< 5) &&& 0xffff
  let crc3 := crc2 ^^^ code3
  let code4 := (code3 <<< 7) &&& 0xffff
  crc3 ^^^ code4

/-- `crc16` from ymodem.js: fold the byte-at-a-time step over the input,
starting from 0. -/
def crc16 (bytes : List Nat) : Nat := bytes.foldl crc16Step 0

/-- Modelled from the spec: one shift step of the standard CRC-16/XMODEM
reference algorithm — polynomial 0x1021, MSB first, no reflection. -/
def crcBitStep (c : Nat) : Nat :=
  if c &&& 0x8000 = 0 then (c <<< 1) &&& 0xffff
  else ((c <<< 1) ^^^ 0x1021) &&& 0xffff

/-- Modelled from the spec: the reference CRC-16/XMODEM absorbs one byte by
xoring it into the top byte of the register and running eight bit steps. -/
def crcRefByte (c b : Nat) : Nat := crcBitStep^[8] (c ^^^ ((b &&& 0xff) <<< 8))

/-- Modelled from the spec: reference CRC-16/XMODEM of a byte sequence,
initial value 0, no final xor. -/
def crc16Ref (bytes : List Nat) : Nat := bytes.foldl crcRefByte 0

/-- The contribution of the top byte in one `crc16Step`: the classic
table-free "table entry" `c ^ (c << 5) ^ (c << 12)` with `c = x ^ (x >> 4)`,
written exactly as the masked shifts of the source compute it (proof
helper). -/
def crcTbl (x : Nat) : Nat :=
  let c := x ^^^ (x >>> 4)
  (c ^^^ ((c <<< 5) &&& 0xffff)) ^^^ ((((c <<< 5) &&& 0xffff) <<< 7) &&& 0xffff)

/-! ### Protocol constants (ymodem.js, lines 3-10) -/

abbrev PACKET_SIZE : Nat := 1024

abbrev STX : Nat := 0x02

abbrev EOT : Nat := 0x04

abbrev ACK : Nat := 0x06

abbrev NAK : Nat := 0x15

abbrev CA : Nat := 0x18

/-- The `CRC16` control byte (0x43, ASCII C) announcing the remote is ready. -/
abbrev CRC16req : Nat := 0x43

/-! ### Buffer helpers (ymodem.js `makeFileHeader` and `splitBuffer`) -/

/-- `Buffer.alloc(n, 0xff)` followed by `bytes.copy(chunk, 0, ...)`: the first
`n` bytes of `bytes` (truncating) with the remainder filled with `0xff`. -/
def mkChunk (n : Nat) (bytes : List Nat) : List Nat :=
  bytes.take n ++ List.replicate (n - bytes.length) 0xff

/-- The `while (start < buffer.byteLength)` loop of `splitBuffer` (lines
61-70), recursing on the not-yet-consumed suffix of the buffer.  `fixedSize`
is 0 when the JS argument is absent/falsy (`fixedSize || ...`).  The JS loop
advances `start` by `size ≥ 1` each iteration, so fuel `buffer.length`
(supplied by `splitBuffer`) makes the recursion total without changing its
result. -/
def splitGo (size fixedSize : Nat) : Nat → List Nat → List (List Nat)
  | 0, _ => []
  | _, [] => []
  | fuel + 1, l =>
      mkChunk (if fixedSize = 0 then (l.take size).length else fixedSize) (l.take size) ::
        splitGo size fixedSize fuel (l.drop size)

/-- `splitBuffer` from ymodem.js (lines 56-76): split `buffer` into chunks of
`size` bytes, each allocated at `fixedSize` (or its natural size when
`fixedSize` is 0/absent) and right-filled with `0xff`. -/
def splitBuffer (buffer : List Nat) (size fixedSize : Nat) : List (List Nat) :=
  if size < buffer.length then splitGo size fixedSize buffer.length buffer
  else [mkChunk (if fixedSize = 0 then size else fixedSize) buffer]

/-- `Buffer.write` at an offset: overlay `bytes` onto `buf` starting at
`off`, truncating at the end of `buf`. -/
def overlay (buf : List Nat) (off : Nat) (bytes : List Nat) : List Nat :=
  buf.take off ++ bytes.take (buf.length - off) ++ buf.drop (off + bytes.length)

/-- ASCII bytes of the decimal representation of `n` (JS `n.toString()`). -/
def natDecimalBytes (n : Nat) : List Nat := (Nat.toDigits 10 n).map Char.toNat

/-- `makeFileHeader` from ymodem.js (lines 36-47).  The filename (a byte
string; JS `if (filename)` is false exactly for the empty string) is written
at offset 0, then — when `filesize` is nonzero (JS truthiness) — its decimal
digits and a trailing space at offset `filename.length + 1`, all over a
zero-filled 1024-byte payload. -/
def makeFileHeader (filename : List Nat) (filesize : Nat) : List Nat :=
  let payload := List.replicate PACKET_SIZE 0
  let withName := if filename = [] then payload else overlay payload 0 filename
  let offset := if filename = [] then 0 else filename.length + 1
  if filesize = 0 then withName
  else overlay withName offset (natDecimalBytes filesize ++ [0x20])

/-! ### Packet framing and the transfer state machine (ymodem.js `transfer`) -/

/-- The packet constructed by `sendPacket` (lines 112-127): `STX`, the
sequence byte (`Uint8` assignment truncates mod 256), its complement, the
payload, and the big-endian CRC16 of the payload.  Every payload the engine
passes here is exactly `PACKET_SIZE` bytes, so the zero-initialised packet
buffer is fully overwritten. -/
def mkPacket (seq : Nat) (payload : List Nat) : List Nat :=
  let s := seq % 256
  let c := crc16 payload
  STX :: s :: (0xff - s) :: (payload ++ [c / 256, c % 256])

/-- The end-of-session null header sent at lines 167-171:
`Buffer.alloc(PACKET_SIZE + 5, 0x00)` with `STX, 0x00, 0xff` at the front. -/
def endFrame : List Nat := STX :: 0x00 :: 0xff :: List.replicate (PACKET_SIZE + 2) 0

/-- The result object the `transfer` promise resolves with (lines 189-193). -/
structure YResult where
  filePath : List Nat
  totalBytes : Nat
  writtenBytes : Nat
deriving DecidableEq

/-- The mutable closure state of one `transfer()` call (lines 86-96),
together with the observable effects: `listenerActive` models the `data`
subscription on the serial port, `result` the at-most-once resolution of the
promise, and `sent` logs, in order, each buffer handed to `sendBuffer`
(packets, the single-byte `EOT`, the end-of-session frame). -/
structure YState where
  filename : List Nat
  queue : List (List Nat)
  totalBytes : Nat
  writtenBytes : Nat
  seq : Nat
  session : Bool
  sending : Bool
  finished : Bool
  listenerActive : Bool
  result : Option YResult
  sent : List (List Nat)
deriving DecidableEq

/-- The buffers `sendPacket` (lines 112-132) writes from a given state: the
framed packet `queue[seq]` when `seq < queue.length`, else a lone `EOT` when
`sending`, else nothing. -/
def sendPacketFrames (s : YState) : List (List Nat) :=
  if h : s.seq < s.queue.length then [mkPacket s.seq (s.queue.get ⟨s.seq, h⟩)]
  else if s.sending then [[EOT]] else []

/-- Run `sendPacket()`: append its output to the send log. -/
def doSendPacket (s : YState) : YState := { s with sent := s.sent ++ sendPacketFrames s }

/-- `close` from ymodem.js (lines 184-197): clear `session` and `sending`,
remove the `data` listener, resolve the promise if not yet finished, and set
`finished`. -/
def close (s : YState) : YState :=
  if s.finished then { s with session := false, sending := false, listenerActive := false }
  else
    { s with
      session := false, sending := false, listenerActive := false, finished := true,
      result := some ⟨s.filename, s.totalBytes, s.writtenBytes⟩ }

/-- One iteration of the `for` loop of `handler` (lines 136-181), processing
a single received byte `ch`.  The `writtenBytes` update mirrors lines
151-156 (`(seq + 1) * PACKET_SIZE`, capped at `totalBytes`), performed
before `seq++` and the follow-up `sendPacket()`. -/
def stepByte (s : YState) (ch : Nat) : YState :=
  if s.finished then s
  else if ch = CRC16req then
    if s.sending then s else { doSendPacket s with sending := true }
  else if ch = ACK then
    let s1 := if s.session then s else close s
    if s1.sending then
      if s1.seq < s1.queue.length then
        let w0 := (s1.seq + 1) * PACKET_SIZE
        let w1 := if s1.totalBytes < w0 then s1.totalBytes else w0
        let w := if s1.writtenBytes < s1.totalBytes then w1 else s1.writtenBytes
        doSendPacket { s1 with writtenBytes := w, seq := s1.seq + 1 }
      else
        { s1 with sending := false, session := false, sent := s1.sent ++ [endFrame] }
    else s1
  else if ch = NAK then doSendPacket s
  else if ch = CA then close s
  else s

/-- The body of `handler` (lines 136-181): scan the received buffer byte by
byte (the `finished` guard is re-checked inside `stepByte`). -/
def processBytes (s : YState) (data : List Nat) : YState := data.foldl stepByte s

/-- The state of `transfer(serial, filename, buffer)` (lines 85-213) right
after setup: header packet plus the 1024-byte data chunks queued, counters
zeroed, `session` begun and the `data` listener installed. -/
def initTransfer (filename : List Nat) (buffer : List Nat) : YState :=
  { filename := filename
    queue := makeFileHeader filename buffer.length :: splitBuffer buffer PACKET_SIZE PACKET_SIZE
    totalBytes := buffer.length
    writtenBytes := 0
    seq := 0
    session := true
    sending := false
    finished := false
    listenerActive := true
    result := none
    sent := [] }

/-- Frames of consecutive data packets: `mkPacket i p₀, mkPacket (i+1) p₁, …`
(specification helper used to describe the send log). -/
def dataFrames (i : Nat) : List (List Nat) → List (List Nat)
  | [] => []
  | p :: rest => mkPacket i p :: dataFrames (i + 1) rest

/-- The number of packets sent strictly after the header packet and before
the `EOT` byte — the "data packets" of the transfer (specification helper
reading the send log). -/
def dataPacketsSent (s : YState) : Nat :=
  ((s.sent.drop 1).takeWhile (fun f => f ≠ [EOT])).length

/-- Engine state mid-transfer: sequence number `i`, `session` and `sending`
both set, promise unresolved, `log` the frames sent so far (proof helper
describing every state reached between the initial `CRC16` byte and the
`EOT`). -/
def midState (fn : List Nat) (Q : List (List Nat)) (K w i : Nat)
    (log : List (List Nat)) : YState :=
  ⟨fn, Q, K, w, i, true, true, false, true, none, log⟩

/-! ### Web Serial transport (src/src/io/web-serial.js) -/

/-- Events the transport emits on the runtime, plus the reset-callback
invocation, in the order they happen. -/
inductive SEvent
  | peripheralConnected
  | peripheralDisconnected
  | connectionLost
  | requestError
  | resetCalled
deriving DecidableEq

/-- Observable state of a `WebSerial` session: the `_connected` flag, whether
`_port` is non-null, whether a reset callback was supplied, and the ordered
log of runtime events.  (`disconnect` releases the reader/writer locks but
never nulls `_reader`/`_writer`, so they need no tracking here.) -/
structure WState where
  connected : Bool
  port : Bool
  hasResetCallback : Bool
  events : List SEvent
deriving DecidableEq

/-- `WebSerial.disconnect` (web-serial.js lines 95-115): clear `_connected`,
release locks, close and null the port, and unconditionally emit
`PERIPHERAL_DISCONNECTED`. -/
def disconnect (s : WState) : WState :=
  { s with connected := false, port := false,
           events := s.events ++ [SEvent.peripheralDisconnected] }

/-- `WebSerial.handleDisconnectError` (lines 215-230): no-op unless
`_connected`; otherwise `disconnect()`, invoke the reset callback when
present, then emit `PERIPHERAL_CONNECTION_LOST_ERROR`. -/
def handleDisconnectError (s : WState) : WState :=
  if s.connected = false then s
  else
    let s1 := disconnect s
    let s2 := if s1.hasResetCallback then { s1 with events := s1.events ++ [SEvent.resetCalled] }
              else s1
    { s2 with events := s2.events ++ [SEvent.connectionLost] }

/-- The ECMAScript `\s` character class that `message.replace(/\s+/g, '')`
removes in `write` (line 166): WhiteSpace plus LineTerminator, i.e.
U+0009-U+000D, U+0020, and the Unicode space characters U+00A0, U+1680,
U+2000-U+200A, U+2028, U+2029, U+202F, U+205F, U+3000 and U+FEFF. -/
def isJsWhitespace (c : Char) : Bool :=
  (9 ≤ c.toNat && c.toNat ≤ 13) || c.toNat = 0x20 || c.toNat = 0xa0 ||
    c.toNat = 0x1680 || (0x2000 ≤ c.toNat && c.toNat ≤ 0x200a) ||
    c.toNat = 0x2028 || c.toNat = 0x2029 || c.toNat = 0x202f ||
    c.toNat = 0x205f || c.toNat = 0x3000 || c.toNat = 0xfeff

/-- Hex digits accepted by the `/^[0-9A-Fa-f]+$/` test (line 167). -/
def isHexDigitByte (c : Char) : Bool :=
  (48 ≤ c.toNat && c.toNat ≤ 57) || (65 ≤ c.toNat && c.toNat ≤ 70) ||
    (97 ≤ c.toNat && c.toNat ≤ 102)

/-- Value of one hex digit (`parseInt(c, 16)` on a digit character). -/
def hexVal (c : Char) : Nat :=
  if c.toNat ≤ 57 then c.toNat - 48
  else if c.toNat ≤ 70 then c.toNat - 55
  else c.toNat - 87

/-- The parse loop of the `hex` branch (lines 168-173): consume the string
two characters at a time, `parseInt(substring, 16)` each pair. -/
def hexPairs : List Char → List Nat
  | c1 :: c2 :: rest => (16 * hexVal c1 + hexVal c2) :: hexPairs rest
  | [c1] => [hexVal c1]
  | [] => []

/-- The `writeChunk` recursion of `WebSerial.write` (lines 185-199): slice
`CHUNK_SIZE = 255` bytes at `counter * 255`, await the chunk write, then
recurse with `counter + 1`.  Each recursive call strictly advances
`counter * 255`, so fuel `data.length + 1` (supplied by `writeChunks`) makes
the recursion total without changing its result.  The returned list records
the chunk writes in the order they are issued — each one completes before
the next is begun in the source. -/
def writeChunksGo (data : List Nat) : Nat → Nat → List (List Nat)
  | 0, _ => []
  | fuel + 1, counter =>
      if counter * 255 < data.length then
        (data.drop (counter * 255)).take 255 :: writeChunksGo data fuel (counter + 1)
      else []

/-- All chunk writes issued for `data`, in order (lines 183-201 with
`counter = 0`). -/
def writeChunks (data : List Nat) : List (List Nat) :=
  writeChunksGo data (data.length + 1) 0

/-- Outcome of `WebSerial.write`: either the synchronous `EncodingError`
rejection — which in the source happens before `getWriter()` is called and
before any byte reaches the transport — or the ordered list of chunk writes
performed with the writer lock held. -/
inductive WriteResult
  | encodingError
  | written (chunks : List (List Nat))
deriving DecidableEq

/-- `WebSerial.write(message, 'hex')` (lines 159-202): strip whitespace,
require a nonempty even-length all-hex string (else reject with
`EncodingError` — `Promise.reject` at line 175, before the writer is
acquired), parse byte pairs and write them in 255-byte chunks. -/
def writeHex (message : List Char) : WriteResult :=
  let data := message.filter (fun c => !isJsWhitespace c)
  if data ≠ [] ∧ data.all isHexDigitByte ∧ data.length % 2 = 0 then
    WriteResult.written (writeChunks (hexPairs data))
  else WriteResult.encodingError

/-! ### Bitwise helper lemmas -/

theorem xor_shiftLeft_distrib (a b n : Nat) : (a ^^^ b) <<< n = (a <<< n) ^^^ (b <<< n) := by
  apply Nat.eq_of_testBit_eq
  intro i
  simp [Nat.testBit_shiftLeft, Nat.testBit_xor, Bool.and_xor_distrib_left]

theorem xor_land_distrib (a b m : Nat) : (a ^^^ b) &&& m = (a &&& m) ^^^ (b &&& m) := by
  apply Nat.eq_of_testBit_eq
  intro i
  simp [Nat.testBit_and, Nat.testBit_xor, Bool.and_xor_distrib_right]

theorem land_ff_eq_mod (a : Nat) : a &&& 0xff = a % 256 := by
  rw [show (0xff : Nat) = 2 ^ 8 - 1 by norm_num, Nat.and_pow_two_sub_one_eq_mod]

theorem land_ffff_eq_mod (a : Nat) : a &&& 0xffff = a % 65536 := by
  rw [show (0xffff : Nat) = 2 ^ 16 - 1 by norm_num, Nat.and_pow_two_sub_one_eq_mod]

theorem land_ff_lt (a : Nat) : a &&& 0xff < 256 := by
  rw [land_ff_eq_mod]
  exact Nat.mod_lt _ (by norm_num)

theorem land_ffff_lt (a : Nat) : a &&& 0xffff < 65536 := by
  rw [land_ffff_eq_mod]
  exact Nat.mod_lt _ (by norm_num)

theorem xor_lt_256 {a b : Nat} (ha : a < 256) (hb : b < 256) : a ^^^ b < 256 := by
  have e : (2 : Nat) ^ 8 = 256 := by norm_num
  have h := @Nat.xor_lt_two_pow a b 8 (by omega) (by omega)
  omega

theorem xor_lt_65536 {a b : Nat} (ha : a < 65536) (hb : b < 65536) : a ^^^ b < 65536 := by
  have e : (2 : Nat) ^ 16 = 65536 := by norm_num
  have h := @Nat.xor_lt_two_pow a b 16 (by omega) (by omega)
  omega

theorem xor_rearrange (a x y z : Nat) : ((a ^^^ x) ^^^ y) ^^^ z = a ^^^ ((x ^^^ y) ^^^ z) := by
  rw [Nat.xor_assoc, Nat.xor_assoc, Nat.xor_assoc x y z]

theorem shiftRight_lt_256 {a : Nat} (h : a < 65536) : a >>> 8 < 256 := by
  rw [Nat.shiftRight_eq_div_pow]
  norm_num
  omega

/-- Splitting a 16-bit value into its top byte and low byte (a pure bitwise
identity, valid for every natural number). -/
theorem byte_decompose (c : Nat) : ((c >>> 8) <<< 8) ^^^ (c &&& 0xff) = c := by
  apply Nat.eq_of_testBit_eq
  intro i
  rw [show (0xff : Nat) = 2 ^ 8 - 1 by norm_num]
  simp only [Nat.testBit_xor, Nat.testBit_shiftLeft, Nat.testBit_shiftRight, Nat.testBit_and,
    Nat.testBit_two_pow_sub_one]
  by_cases h : i < 8
  · have h8 : ¬(i ≥ 8) := by omega
    simp [h, h8]
  · have h8 : i ≥ 8 := by omega
    have he : 8 + (i - 8) = i := by omega
    simp [h, h8, he]

theorem shiftLeft8_land_ffff (c : Nat) : (c <<< 8) &&& 0xffff = (c &&& 0xff) <<< 8 := by
  apply Nat.eq_of_testBit_eq
  intro i
  rw [show (0xffff : Nat) = 2 ^ 16 - 1 by norm_num, show (0xff : Nat) = 2 ^ 8 - 1 by norm_num]
  simp only [Nat.testBit_and, Nat.testBit_shiftLeft, Nat.testBit_two_pow_sub_one]
  by_cases h8 : i ≥ 8
  · by_cases h16 : i < 16
    · have : i - 8 < 8 := by omega
      simp [h8, h16, this]
    · have : ¬(i - 8 < 8) := by omega
      simp [h8, h16, this]
  · simp [h8]

theorem land_8000_eq_zero {y : Nat} (hy : y < 32768) : y &&& 0x8000 = 0 := by
  rw [show (0x8000 : Nat) = 2 ^ 15 by norm_num, Nat.and_two_pow]
  rw [Nat.testBit_lt_two_pow (by norm_num [hy])]
  simp

/-! ### CRC16 equivalence with the bit-at-a-time reference -/

theorem crcBitStep_xor (x y : Nat) (hy : y < 32768) :
    crcBitStep (x ^^^ y) = crcBitStep x ^^^ ((y <<< 1) &&& 0xffff) := by
  unfold crcBitStep
  have htop : (x ^^^ y) &&& 0x8000 = x &&& 0x8000 := by
    rw [xor_land_distrib, land_8000_eq_zero hy]
    simp
  rw [htop]
  by_cases h : x &&& 0x8000 = 0
  · simp only [h, if_true, if_pos]
    rw [xor_shiftLeft_distrib, xor_land_distrib]
  · simp only [h, if_false, if_neg]
    rw [xor_shiftLeft_distrib]
    have rearr : (x <<< 1) ^^^ (y <<< 1) ^^^ 0x1021 = ((x <<< 1) ^^^ 0x1021) ^^^ (y <<< 1) := by
      rw [Nat.xor_assoc, Nat.xor_comm (y <<< 1), ← Nat.xor_assoc]
    rw [rearr, xor_land_distrib]

theorem crcBitStep_iterate_xor :
    ∀ (k x y : Nat), y <<< k < 65536 →
      crcBitStep^[k] (x ^^^ y) = (crcBitStep^[k] x) ^^^ (y <<< k)
  | 0, x, y, h => by simp
  | k + 1, x, y, h => by
    have hd : y <<< (k + 1) = (y * 2) <<< k := by
      rw [Nat.shiftLeft_eq, Nat.shiftLeft_eq, Nat.pow_succ]
      ring
    have hyk : y * 2 ≤ (y * 2) <<< k := by
      rw [Nat.shiftLeft_eq]
      exact Nat.le_mul_of_pos_right _ (Nat.pos_pow_of_pos k (by norm_num))
    have hy2 : y * 2 < 65536 := by
      rw [hd] at h
      omega
    have hy15 : y < 32768 := by omega
    rw [Function.iterate_succ_apply, Function.iterate_succ_apply, crcBitStep_xor x y hy15]
    have hmask : (y <<< 1) &&& 0xffff = y * 2 := by
      rw [Nat.shiftLeft_eq, pow_one, land_ffff_eq_mod]
      omega
    rw [hmask, hd]
    exact crcBitStep_iterate_xor k (crcBitStep x) (y * 2) (hd ▸ h)

set_option maxRecDepth 8192 in
theorem crcTbl_eq_bitIterate : ∀ x < 256, crcBitStep^[8] (x <<< 8) = crcTbl x := by decide

theorem crc16Step_eq_crcRefByte (crc b : Nat) (h : crc < 65536) :
    crc16Step crc b = crcRefByte crc b := by
  have hhi : crc >>> 8 < 256 := shiftRight_lt_256 h
  have hhi' : (crc >>> 8) &&& 0xff = crc >>> 8 := by
    rw [land_ff_eq_mod]
    omega
  have hb : b &&& 0xff < 256 := land_ff_lt b
  have hmix : (crc >>> 8) ^^^ (b &&& 0xff) < 256 := xor_lt_256 hhi hb
  have lhs_eq : crc16Step crc b =
      ((crc <<< 8) &&& 0xffff) ^^^ crcTbl ((crc >>> 8) ^^^ (b &&& 0xff)) := by
    unfold crc16Step crcTbl
    dsimp only
    rw [hhi']
    exact xor_rearrange _ _ _ _
  have e1 : crc ^^^ ((b &&& 0xff) <<< 8) =
      (((crc >>> 8) ^^^ (b &&& 0xff)) <<< 8) ^^^ (crc &&& 0xff) := by
    conv_lhs => rw [← byte_decompose crc]
    rw [xor_shiftLeft_distrib, Nat.xor_assoc, Nat.xor_comm (crc &&& 0xff), ← Nat.xor_assoc]
  have hlo : crc &&& 0xff < 256 := land_ff_lt crc
  have hlo8 : (crc &&& 0xff) <<< 8 < 65536 := by
    rw [Nat.shiftLeft_eq]
    norm_num
    omega
  have rhs_eq : crcRefByte crc b =
      crcTbl ((crc >>> 8) ^^^ (b &&& 0xff)) ^^^ ((crc &&& 0xff) <<< 8) := by
    unfold crcRefByte
    rw [e1, crcBitStep_iterate_xor 8 _ _ hlo8,
      crcTbl_eq_bitIterate _ hmix]
  rw [lhs_eq, rhs_eq, shiftLeft8_land_ffff, Nat.xor_comm]

theorem crc16Step_lt (crc b : Nat) : crc16Step crc b < 65536 := by
  unfold crc16Step
  refine xor_lt_65536 (xor_lt_65536 (xor_lt_65536 (land_ffff_lt _) ?_) (land_ffff_lt _))
    (land_ffff_lt _)
  have h1 : ((crc >>> 8) &&& 0xff) ^^^ (b &&& 0xff) < 256 :=
    xor_lt_256 (land_ff_lt _) (land_ff_lt _)
  have h2 : (((crc >>> 8) &&& 0xff) ^^^ (b &&& 0xff)) >>> 4 < 256 := by
    rw [Nat.shiftRight_eq_div_pow]
    omega
  have := xor_lt_256 h1 h2
  omega

theorem crc16_foldl_eq :
    ∀ (bytes : List Nat) (acc : Nat), acc < 65536 →
      bytes.foldl crc16Step acc = bytes.foldl crcRefByte acc
  | [], _, _ => rfl
  | b :: rest, acc, h => by
    rw [List.foldl_cons, List.foldl_cons, ← crc16Step_eq_crcRefByte acc b h]
    exact crc16_foldl_eq rest _ (crc16Step_lt acc b)

theorem crc16_foldl_lt :
    ∀ (bytes : List Nat) (acc : Nat), acc < 65536 → bytes.foldl crc16Step acc < 65536
  | [], _, h => h
  | b :: rest, acc, _ => by
    rw [List.foldl_cons]
    exact crc16_foldl_lt rest _ (crc16Step_lt acc b)

/-! ### Transfer state machine: single-step lemmas -/

theorem stepByte_ack_mid (fn : List Nat) (Q : List (List Nat)) (K w i : Nat)
    (log : List (List Nat)) (h : i + 1 < Q.length) :
    stepByte (midState fn Q K w i log) ACK =
      midState fn Q K
        (if w < K then (if K < (i + 1) * 1024 then K else (i + 1) * 1024) else w) (i + 1)
        (log ++ [mkPacket (i + 1) (Q.get ⟨i + 1, h⟩)]) := by
  have hi : i < Q.length := by omega
  simp only [stepByte, midState, doSendPacket, sendPacketFrames, close]
  norm_num
  rw [if_pos hi, dif_pos h]

theorem stepByte_ack_last (fn : List Nat) (Q : List (List Nat)) (K w i : Nat)
    (log : List (List Nat)) (hi : i < Q.length) (h : ¬(i + 1 < Q.length)) :
    stepByte (midState fn Q K w i log) ACK =
      ⟨fn, Q, K, (if w < K then (if K < (i + 1) * 1024 then K else (i + 1) * 1024) else w),
        i + 1, true, true, false, true, none, log ++ [[EOT]]⟩ := by
  simp only [stepByte, midState, doSendPacket, sendPacketFrames, close]
  norm_num
  rw [if_pos hi, dif_neg h]

theorem stepByte_ack_eot (fn : List Nat) (Q : List (List Nat)) (K w i : Nat)
    (log : List (List Nat)) (h : ¬(i < Q.length)) :
    stepByte (⟨fn, Q, K, w, i, true, true, false, true, none, log⟩ : YState) ACK =
      ⟨fn, Q, K, w, i, false, false, false, true, none, log ++ [endFrame]⟩ := by
  simp only [stepByte, doSendPacket, sendPacketFrames, close]
  norm_num
  omega

theorem stepByte_ack_closing (fn : List Nat) (Q : List (List Nat)) (K w i : Nat)
    (log : List (List Nat)) :
    stepByte (⟨fn, Q, K, w, i, false, false, false, true, none, log⟩ : YState) ACK =
      ⟨fn, Q, K, w, i, false, false, true, false, some ⟨fn, K, w⟩, log⟩ := by
  simp only [stepByte, doSendPacket, sendPacketFrames, close]
  norm_num

theorem stepByte_crc16_start (fn buffer : List Nat) :
    stepByte (initTransfer fn buffer) CRC16req =
      midState fn (makeFileHeader fn buffer.length :: splitBuffer buffer PACKET_SIZE PACKET_SIZE)
        buffer.length 0
        0 [mkPacket 0 (makeFileHeader fn buffer.length)] := by
  simp only [stepByte, initTransfer, midState, doSendPacket, sendPacketFrames, close]
  norm_num

theorem stepByte_ca_mid (fn : List Nat) (Q : List (List Nat)) (K w i : Nat)
    (log : List (List Nat)) :
    stepByte (midState fn Q K w i log) CA =
      ⟨fn, Q, K, w, i, false, false, true, false, some ⟨fn, K, w⟩, log⟩ := by
  simp only [stepByte, midState, doSendPacket, sendPacketFrames, close]
  norm_num

/-! ### Transfer state machine: the acknowledged run -/

theorem processBytes_ack_run (fn : List Nat) (Q : List (List Nat)) (K : Nat) :
    ∀ (n i : Nat) (log : List (List Nat)), i + n < Q.length →
      processBytes (midState fn Q K (min (i * 1024) K) i log) (List.replicate n ACK) =
        midState fn Q K (min ((i + n) * 1024) K) (i + n)
          (log ++ dataFrames (i + 1) ((Q.drop (i + 1)).take n))
  | 0, i, log, h => by
    simp [processBytes, dataFrames]
  | n + 1, i, log, h => by
    have h1 : i + 1 < Q.length := by omega
    rw [List.replicate_succ]
    unfold processBytes
    rw [List.foldl_cons, stepByte_ack_mid fn Q K _ i log h1]
    have hw : (if min (i * 1024) K < K then (if K < (i + 1) * 1024 then K else (i + 1) * 1024)
        else min (i * 1024) K) = min ((i + 1) * 1024) K := by
      split_ifs <;> omega
    rw [hw]
    have IH := processBytes_ack_run fn Q K n (i + 1)
      (log ++ [mkPacket (i + 1) (Q.get ⟨i + 1, h1⟩)]) (by omega)
    unfold processBytes at IH
    rw [IH]
    have e : i + 1 + n = i + (n + 1) := by omega
    rw [e]
    congr 1
    rw [List.drop_eq_getElem_cons h1, List.take_succ_cons]
    simp [dataFrames, List.get_eq_getElem]

/-! ### splitBuffer length facts -/

theorem splitGo_1024_length :
    ∀ (fuel : Nat) (l : List Nat), l.length ≤ fuel →
      (splitGo 1024 1024 fuel l).length = (l.length + 1023) / 1024
  | 0, l, h => by
    have hl : l = [] := List.eq_nil_of_length_eq_zero (by omega)
    subst hl
    simp [splitGo]
  | fuel + 1, [], _ => by simp [splitGo]
  | fuel + 1, x :: rest, h => by
    simp only [List.length_cons] at h
    simp only [splitGo, List.length_cons]
    rw [splitGo_1024_length fuel ((x :: rest).drop 1024)
      (by simp only [List.length_drop, List.length_cons]; omega)]
    simp only [List.length_drop, List.length_cons]
    omega

theorem splitBuffer_1024_length (buffer : List Nat) :
    (splitBuffer buffer 1024 1024).length = max 1 ((buffer.length + 1023) / 1024) := by
  unfold splitBuffer
  by_cases h : 1024 < buffer.length
  · rw [if_pos h, splitGo_1024_length buffer.length buffer le_rfl]
    omega
  · rw [if_neg h]
    simp only [List.length_singleton]
    omega

theorem splitBuffer_1024_bytes_le (buffer : List Nat) :
    buffer.length ≤ (splitBuffer buffer 1024 1024).length * 1024 := by
  rw [splitBuffer_1024_length]
  omega

/-! ### Send-log bookkeeping -/

theorem dataFrames_length : ∀ (i : Nat) (l : List (List Nat)), (dataFrames i l).length = l.length
  | _, [] => rfl
  | i, _ :: rest => by
    simp only [dataFrames, List.length_cons]
    rw [dataFrames_length (i + 1) rest]

theorem mkPacket_ne_eot_frame (i : Nat) (p : List Nat) : mkPacket i p ≠ [EOT] := by
  unfold mkPacket
  intro hcontra
  have h2 := List.head_eq_of_cons_eq hcontra
  exact absurd h2 (by decide)

theorem dataFrames_ne_eot :
    ∀ (i : Nat) (l : List (List Nat)) (f : List Nat), f ∈ dataFrames i l → f ≠ [EOT]
  | i, [], f, hf => by simp [dataFrames] at hf
  | i, p :: rest, f, hf => by
    simp only [dataFrames, List.mem_cons] at hf
    rcases hf with hf | hf
    · subst hf
      exact mkPacket_ne_eot_frame i p
    · exact dataFrames_ne_eot (i + 1) rest f hf

theorem takeWhile_until_eot :
    ∀ (L rest : List (List Nat)), (∀ f ∈ L, f ≠ [EOT]) →
      (L ++ [EOT] :: rest).takeWhile (fun f => f ≠ [EOT]) = L
  | [], rest, _ => by simp [List.takeWhile_cons]
  | a :: L, rest, hL => by
    have ha : a ≠ [EOT] := hL a (by simp)
    simp only [List.cons_append, List.takeWhile_cons, decide_eq_true ha]
    simp only [if_true, eq_self_iff_true]
    rw [takeWhile_until_eot L rest (fun f hf => hL f (by simp [hf]))]

/-! ### The complete clean run -/

theorem processBytes_clean_from_mid (fn hdr : List Nat) (P : List (List Nat)) (K : Nat)
    (hKD : K ≤ P.length * 1024) :
    processBytes (midState fn (hdr :: P) K 0 0 [mkPacket 0 hdr])
        (List.replicate (P.length + 3) ACK) =
      ⟨fn, hdr :: P, K, K, P.length + 1, false, false, true, false, some ⟨fn, K, K⟩,
        mkPacket 0 hdr :: (dataFrames 1 P ++ [[EOT], endFrame])⟩ := by
  have phase := processBytes_ack_run fn (hdr :: P) K P.length 0 [mkPacket 0 hdr]
    (by simp)
  simp only [Nat.zero_add] at phase
  have e1 : min (0 * 1024) K = 0 := by omega
  have e2 : min (P.length * 1024) K = K := by omega
  rw [e1, e2] at phase
  have e3 : ((hdr :: P).drop 1).take P.length = P := by
    simp
  rw [e3] at phase
  rw [List.replicate_add]
  unfold processBytes at phase ⊢
  rw [List.foldl_append, phase]
  have hlast : ¬(P.length + 1 < (hdr :: P).length) := by simp
  have hlt : P.length < (hdr :: P).length := by simp
  rw [show (List.replicate 3 ACK) = [ACK, ACK, ACK] from rfl]
  rw [List.foldl_cons, stepByte_ack_last fn (hdr :: P) K K P.length _ hlt hlast,
    if_neg (lt_irrefl K)]
  rw [List.foldl_cons, stepByte_ack_eot fn (hdr :: P) K K (P.length + 1) _ (by simp)]
  rw [List.foldl_cons, stepByte_ack_closing, List.foldl_nil]
  simp [List.append_assoc]

theorem transfer_clean_run (fn buffer : List Nat) :
    processBytes (initTransfer fn buffer)
        (CRC16req ::
          List.replicate ((splitBuffer buffer PACKET_SIZE PACKET_SIZE).length + 3) ACK) =
      ⟨fn, makeFileHeader fn buffer.length :: splitBuffer buffer PACKET_SIZE PACKET_SIZE,
        buffer.length, buffer.length,
        (splitBuffer buffer PACKET_SIZE PACKET_SIZE).length + 1, false, false, true, false,
        some ⟨fn, buffer.length, buffer.length⟩,
        mkPacket 0 (makeFileHeader fn buffer.length) ::
          (dataFrames 1 (splitBuffer buffer PACKET_SIZE PACKET_SIZE) ++ [[EOT], endFrame])⟩ := by
  unfold processBytes
  rw [List.foldl_cons, stepByte_crc16_start fn buffer]
  have h := processBytes_clean_from_mid fn (makeFileHeader fn buffer.length)
    (splitBuffer buffer PACKET_SIZE PACKET_SIZE) buffer.length
    (splitBuffer_1024_bytes_le buffer)
  unfold processBytes at h
  exact h

/-- The aborted run: the initial `CRC16` byte, `j + 1` ACKs (header plus
`j` data packets), then `CA`. -/
theorem transfer_abort_run (fn buffer : List Nat) (j : Nat)
    (h : j < (splitBuffer buffer PACKET_SIZE PACKET_SIZE).length) :
    processBytes (initTransfer fn buffer)
        (CRC16req :: (List.replicate (j + 1) ACK ++ [CA])) =
      ⟨fn, makeFileHeader fn buffer.length :: splitBuffer buffer PACKET_SIZE PACKET_SIZE,
        buffer.length, min ((j + 1) * 1024) buffer.length, j + 1, false, false, true, false,
        some ⟨fn, buffer.length, min ((j + 1) * 1024) buffer.length⟩,
        mkPacket 0 (makeFileHeader fn buffer.length) ::
          dataFrames 1 ((splitBuffer buffer PACKET_SIZE PACKET_SIZE).take (j + 1))⟩ := by
  unfold processBytes
  rw [List.foldl_cons, stepByte_crc16_start fn buffer, List.foldl_append]
  have phase := processBytes_ack_run fn
    (makeFileHeader fn buffer.length :: splitBuffer buffer PACKET_SIZE PACKET_SIZE)
    buffer.length (j + 1) 0 [mkPacket 0 (makeFileHeader fn buffer.length)]
    (by simp only [List.length_cons]; omega)
  simp only [Nat.zero_add] at phase
  have e1 : min (0 * 1024) buffer.length = 0 := by omega
  rw [e1] at phase
  unfold processBytes at phase
  rw [phase, List.foldl_cons, stepByte_ca_mid, List.foldl_nil]
  simp only [List.drop_succ_cons, List.drop_zero, List.singleton_append]

/-! ### NAK handling -/

theorem stepByte_nak (fn : List Nat) (Q : List (List Nat)) (K w i : Nat)
    (ses snd la : Bool) (res : Option YResult) (log : List (List Nat)) (h : i < Q.length) :
    stepByte (⟨fn, Q, K, w, i, ses, snd, false, la, res, log⟩ : YState) NAK =
      ⟨fn, Q, K, w, i, ses, snd, false, la, res, log ++ [mkPacket i (Q.get ⟨i, h⟩)]⟩ := by
  simp only [stepByte, doSendPacket, sendPacketFrames]
  norm_num
  rw [dif_pos h]

theorem processBytes_nak_run (fn : List Nat) (Q : List (List Nat)) (K w i : Nat)
    (ses snd la : Bool) (res : Option YResult) (h : i < Q.length) :
    ∀ (n : Nat) (log : List (List Nat)),
      processBytes (⟨fn, Q, K, w, i, ses, snd, false, la, res, log⟩ : YState)
          (List.replicate n NAK) =
        ⟨fn, Q, K, w, i, ses, snd, false, la, res,
          log ++ List.replicate n (mkPacket i (Q.get ⟨i, h⟩))⟩
  | 0, log => by simp [processBytes]
  | n + 1, log => by
    rw [List.replicate_succ]
    unfold processBytes
    rw [List.foldl_cons, stepByte_nak fn Q K w i ses snd la res log h]
    have IH := processBytes_nak_run fn Q K w i ses snd la res h n
      (log ++ [mkPacket i (Q.get ⟨i, h⟩)])
    unfold processBytes at IH
    rw [IH, List.append_assoc]
    congr 1

/-! ### The finished flag freezes the machine -/

theorem stepByte_of_finished (s : YState) (ch : Nat) (h : s.finished = true) :
    stepByte s ch = s := by
  unfold stepByte
  rw [h]
  simp

theorem processBytes_of_finished :
    ∀ (data : List Nat) (s : YState), s.finished = true → processBytes s data = s
  | [], _, _ => rfl
  | b :: rest, s, h => by
    unfold processBytes
    rw [List.foldl_cons, stepByte_of_finished s b h]
    exact processBytes_of_finished rest s h

theorem close_of_finished (s : YState) (h : s.finished = true) :
    close s = { s with session := false, sending := false, listenerActive := false } := by
  unfold close
  rw [h]
  simp

/-! ### The last chunk of splitBuffer -/

theorem splitGo_nil_any (size fixedSize : Nat) : ∀ (fuel : Nat), splitGo size fixedSize fuel [] = []
  | 0 => rfl
  | _ + 1 => rfl

theorem splitGo_1024_getLast :
    ∀ (fuel : Nat) (l : List Nat), l.length ≤ fuel → 0 < l.length → l.length % 1024 ≠ 0 →
      (splitGo 1024 1024 fuel l).getLast? =
        some (l.drop (1024 * (l.length / 1024)) ++
          List.replicate (1024 - l.length % 1024) 0xff)
  | 0, l, hf, hpos, _ => by
    have : l = [] := List.eq_nil_of_length_eq_zero (by omega)
    subst this
    simp at hpos
  | fuel + 1, [], _, hpos, _ => by simp at hpos
  | fuel + 1, x :: rest, hf, hpos, hmod => by
    have hlen : (x :: rest).length = rest.length + 1 := by simp
    rw [hlen] at hf hmod
    by_cases hbig : 1024 < rest.length + 1
    · simp only [splitGo]
      have htail := splitGo_1024_getLast fuel ((x :: rest).drop 1024)
        (by rw [List.length_drop, hlen]; omega)
        (by rw [List.length_drop, hlen]; omega)
        (by rw [List.length_drop, hlen]; omega)
      rw [List.getLast?_cons, htail]
      rw [List.length_drop, hlen]
      simp only [List.drop_drop, Option.getD_some]
      have e1 : 1024 + 1024 * ((rest.length + 1 - 1024) / 1024) =
          1024 * ((rest.length + 1) / 1024) := by omega
      have e2 : (rest.length + 1 - 1024) % 1024 = (rest.length + 1) % 1024 := by omega
      rw [e1, e2]
    · simp only [splitGo]
      have hdropnil : (x :: rest).drop 1024 = [] := by
        apply List.drop_eq_nil_of_le
        rw [hlen]
        omega
      have htake : (x :: rest).take 1024 = x :: rest := List.take_of_length_le (by rw [hlen]; omega)
      have hifn : (if (1024 : Nat) = 0 then ((x :: rest).take 1024).length else 1024) = 1024 := by
        norm_num
      rw [hdropnil, splitGo_nil_any, hifn, htake]
      unfold mkChunk
      rw [List.take_of_length_le (by rw [hlen]; omega)]
      rw [List.getLast?_singleton, hlen]
      have e1 : 1024 * ((rest.length + 1) / 1024) = 0 := by omega
      have e2 : (rest.length + 1) % 1024 = rest.length + 1 := by omega
      rw [e1, e2, List.drop_zero]

/-! ### Serial write chunking -/

theorem writeChunksGo_flatten :
    ∀ (fuel c : Nat) (data : List Nat), data.length ≤ (c + fuel) * 255 →
      (writeChunksGo data fuel c).flatten = data.drop (c * 255)
  | 0, c, data, h => by
    simp only [writeChunksGo, List.flatten_nil]
    rw [eq_comm, List.drop_eq_nil_iff]
    omega
  | fuel + 1, c, data, h => by
    simp only [writeChunksGo]
    by_cases hc : c * 255 < data.length
    · rw [if_pos hc]
      simp only [List.flatten_cons]
      rw [writeChunksGo_flatten fuel (c + 1) data (by omega)]
      have e1 : (c + 1) * 255 = c * 255 + 255 := by ring
      rw [e1, ← List.drop_drop, List.take_append_drop]
    · rw [if_neg hc]
      simp only [List.flatten_nil]
      rw [eq_comm, List.drop_eq_nil_iff]
      omega

theorem writeChunksGo_sizes :
    ∀ (fuel c : Nat) (data : List Nat), data.length ≤ (c + fuel) * 255 →
      (writeChunksGo data fuel c).map List.length =
        List.replicate ((data.length - c * 255) / 255) 255 ++
          (if (data.length - c * 255) % 255 = 0 then []
           else [(data.length - c * 255) % 255])
  | 0, c, data, h => by
    have hz : data.length - c * 255 = 0 := by omega
    simp [writeChunksGo, hz]
  | fuel + 1, c, data, h => by
    simp only [writeChunksGo]
    by_cases hc : c * 255 < data.length
    · rw [if_pos hc]
      simp only [List.map_cons, List.length_take, List.length_drop]
      rw [writeChunksGo_sizes fuel (c + 1) data (by omega)]
      have e1 : data.length - (c + 1) * 255 = data.length - c * 255 - 255 := by omega
      rw [e1]
      by_cases hr : data.length - c * 255 ≤ 255
      · have hmin : min 255 (data.length - c * 255) = data.length - c * 255 := by omega
        rw [hmin]
        have hz : data.length - c * 255 - 255 = 0 := by omega
        rw [hz]
        by_cases h255 : data.length - c * 255 = 255
        · rw [h255]
          norm_num
        · have hq : (data.length - c * 255) / 255 = 0 := by omega
          have hm : (data.length - c * 255) % 255 = data.length - c * 255 := by omega
          rw [hq, hm]
          simp only [List.replicate_zero, List.nil_append, Nat.div_zero]
          norm_num
          rw [if_neg (by omega : ¬data.length - c * 255 = 0)]
      · have hmin : min 255 (data.length - c * 255) = 255 := by omega
        rw [hmin]
        have hq : (data.length - c * 255 - 255) / 255 + 1 = (data.length - c * 255) / 255 := by
          omega
        have hm : (data.length - c * 255 - 255) % 255 = (data.length - c * 255) % 255 := by
          omega
        rw [hm, ← hq, List.replicate_succ]
        rfl
    · rw [if_neg hc]
      have hz : data.length - c * 255 = 0 := by omega
      simp [hz]

theorem writeChunks_flatten (data : List Nat) : (writeChunks data).flatten = data := by
  unfold writeChunks
  rw [writeChunksGo_flatten (data.length + 1) 0 data (by omega)]
  exact List.drop_zero data

theorem writeChunks_sizes (data : List Nat) :
    (writeChunks data).map List.length =
      List.replicate (data.length / 255) 255 ++
        (if data.length % 255 = 0 then [] else [data.length % 255]) := by
  unfold writeChunks
  rw [writeChunksGo_sizes (data.length + 1) 0 data (by omega)]
  norm_num

/-! ### The claims -/

/-- Claim C1 (amended): for every buffer of size `K` and a simulated remote
that answers the initial `CRC16` request and then ACKs every packet
(header, data packets, `EOT` and the end-of-session null header), the
transfer resolves with `writtenBytes = totalBytes = K`, and the number of
data packets sent after the header packet is `max 1 (ceil(K/1024))`: this is
`ceil(K/1024)` for every `K ≥ 1`, but for the empty buffer (`K = 0`) the
engine still queues and sends one (0xff-filled) data packet — the sole
correction to the claim. -/
theorem C1_transfer_completion_amended (fn buffer : List Nat) :
    (processBytes (initTransfer fn buffer)
        (CRC16req :: List.replicate
          ((splitBuffer buffer PACKET_SIZE PACKET_SIZE).length + 3) ACK)).result =
      some ⟨fn, buffer.length, buffer.length⟩ ∧
    dataPacketsSent (processBytes (initTransfer fn buffer)
        (CRC16req :: List.replicate
          ((splitBuffer buffer PACKET_SIZE PACKET_SIZE).length + 3) ACK)) =
      max 1 ((buffer.length + 1023) / 1024) ∧
    (processBytes (initTransfer fn buffer)
        (CRC16req :: List.replicate
          ((splitBuffer buffer PACKET_SIZE PACKET_SIZE).length + 3) ACK)).finished = true := by
  rw [transfer_clean_run fn buffer]
  refine ⟨rfl, ?_, rfl⟩
  unfold dataPacketsSent
  simp only [List.drop_succ_cons, List.drop_zero]
  rw [takeWhile_until_eot _ _ (dataFrames_ne_eot 1 _)]
  rw [dataFrames_length]
  exact splitBuffer_1024_length buffer

/-- Claim C1 counterexample: at `K = 0` (the empty buffer) the engine sends
one data packet after the header even though `ceil(0/1024) = 0`; the
resolution values (`writtenBytes = totalBytes = 0`) still match, so only the
packet-count part of the claim fails. -/
theorem C1_empty_buffer_counterexample :
    dataPacketsSent (processBytes (initTransfer [102] [])
        (CRC16req :: List.replicate 4 ACK)) = 1 ∧
      (0 + 1023) / 1024 = 0 := by
  have hD : (splitBuffer ([] : List Nat) PACKET_SIZE PACKET_SIZE).length = 1 := by
    show (splitBuffer ([] : List Nat) 1024 1024).length = 1
    rw [splitBuffer_1024_length]
    norm_num
  constructor
  · have hrun := transfer_clean_run [102] []
    rw [hD] at hrun
    norm_num at hrun
    rw [hrun]
    unfold dataPacketsSent
    simp only [List.drop_succ_cons, List.drop_zero]
    rw [takeWhile_until_eot _ _ (dataFrames_ne_eot 1 _), dataFrames_length, hD]
  · norm_num

/-- Claim C2: every packet framed by `sendPacket` for a sequence number `s`
and a 1024-byte payload `p` is exactly 1029 bytes — `STX`, `s mod 256`,
`0xFF - (s mod 256)`, the payload, and `crc16 p` big-endian — and for
`s < 256` the complement byte is `0xFF - s`. -/
theorem C2_packet_framing (s : Nat) (p : List Nat) (hp : p.length = 1024) :
    (mkPacket s p).length = 1029 ∧
      (mkPacket s p).take 3 = [STX, s % 256, 0xff - s % 256] ∧
      ((mkPacket s p).drop 3).take 1024 = p ∧
      (mkPacket s p).drop 1027 = [crc16 p / 256, crc16 p % 256] ∧
      crc16 p < 65536 ∧
      (s < 256 → 0xff - s % 256 = 0xff - s) := by
  unfold mkPacket
  refine ⟨?_, rfl, ?_, ?_, crc16_foldl_lt p 0 (by norm_num), ?_⟩
  · simp [hp]
  · show (p ++ [crc16 p / 256, crc16 p % 256]).take 1024 = p
    rw [← hp, List.take_left]
  · show ((STX :: (s % 256) :: (0xff - s % 256) :: p) ++
      [crc16 p / 256, crc16 p % 256]).drop 1027 = [crc16 p / 256, crc16 p % 256]
    rw [show (1027 : Nat) = (STX :: (s % 256) :: (0xff - s % 256) :: p).length from
      by simp [hp]]
    exact List.drop_left _ _
  · intro hs
    rw [Nat.mod_eq_of_lt hs]

/-- Claim C2 witness at `s = 3` and the all-zero 1024-byte payload. -/
theorem C2_packet_framing_witness :
    (List.replicate 1024 (0 : Nat)).length = 1024 ∧
      ((mkPacket 3 (List.replicate 1024 0)).length = 1029 ∧
        (mkPacket 3 (List.replicate 1024 0)).take 3 = [STX, 3 % 256, 0xff - 3 % 256] ∧
        ((mkPacket 3 (List.replicate 1024 0)).drop 3).take 1024 = List.replicate 1024 0 ∧
        (mkPacket 3 (List.replicate 1024 0)).drop 1027 =
          [crc16 (List.replicate 1024 0) / 256, crc16 (List.replicate 1024 0) % 256] ∧
        crc16 (List.replicate 1024 0) < 65536 ∧
        (3 < 256 → 0xff - 3 % 256 = 0xff - 3)) :=
  ⟨by rw [List.length_replicate],
    C2_packet_framing 3 (List.replicate 1024 0) (by rw [List.length_replicate])⟩

/-- Claim C3: `crc16` is deterministic (it is a pure function of its input),
always lies in `0..0xFFFF`, and agrees with the standard CRC-16/XMODEM
reference definition (polynomial 0x1021, initial value 0, bit-at-a-time MSB
first, no reflection, no final xor) on every byte sequence. -/
theorem C3_crc16_reference (bytes : List Nat) :
    crc16 bytes = crc16Ref bytes ∧ crc16 bytes < 65536 :=
  ⟨crc16_foldl_eq bytes 0 (by norm_num), crc16_foldl_lt bytes 0 (by norm_num)⟩

/-- Claim C4 (amended): if the remote sends `CA` after the header packet and
exactly `j` of the `N` data packets have been acknowledged (`j < N`), the
transfer resolves with `writtenBytes = min ((j+1)*1024) totalBytes` — the
`ACK` of the header packet is itself counted as one packet's worth of file
bytes by the code (`writtenBytes = (seq+1)*1024` fires already at `seq = 0`),
which is the sole correction to the claimed `min (j*1024) totalBytes` — and
the data-event subscription is released. -/
theorem C4_abort_written_bytes_amended (fn buffer : List Nat) (j : Nat)
    (h : j < (splitBuffer buffer PACKET_SIZE PACKET_SIZE).length) :
    (processBytes (initTransfer fn buffer)
        (CRC16req :: (List.replicate (j + 1) ACK ++ [CA]))).result =
      some ⟨fn, buffer.length, min ((j + 1) * 1024) buffer.length⟩ ∧
    (processBytes (initTransfer fn buffer)
        (CRC16req :: (List.replicate (j + 1) ACK ++ [CA]))).listenerActive = false ∧
    (processBytes (initTransfer fn buffer)
        (CRC16req :: (List.replicate (j + 1) ACK ++ [CA]))).finished = true := by
  rw [transfer_abort_run fn buffer j h]
  exact ⟨rfl, rfl, rfl⟩

/-- Claim C4 counterexample: a 2048-byte buffer (`N = 2` data packets) with
`CA` sent after the header and `j = 1` data packet were acknowledged: the
code resolves with `writtenBytes = 2048 = totalBytes`, not the claimed
`min (1*1024) 2048 = 1024` — and in particular `writtenBytes` does equal
`totalBytes` even though the transfer was aborted early. -/
theorem C4_abort_counterexample :
    (processBytes (initTransfer [102] (List.replicate 2048 7))
        [CRC16req, ACK, ACK, CA]).result = some ⟨[102], 2048, 2048⟩ ∧
      1 * 1024 ≠ 2048 := by
  constructor
  · have h1 : (1 : Nat) <
        (splitBuffer (List.replicate 2048 7) PACKET_SIZE PACKET_SIZE).length := by
      show (1 : Nat) < (splitBuffer (List.replicate 2048 7) 1024 1024).length
      rw [splitBuffer_1024_length, List.length_replicate]
      norm_num
    have hres := congrArg YState.result (transfer_abort_run [102] (List.replicate 2048 7) 1 h1)
    simp only [List.length_replicate] at hres
    norm_num at hres
    rw [show ([CRC16req, ACK, ACK, CA] : List Nat) =
      CRC16req :: (List.replicate (1 + 1) ACK ++ [CA]) from rfl]
    rw [hres]
  · norm_num

/-- Claim C4 witness at a 1-byte buffer and `j = 0`. -/
theorem C4_abort_written_bytes_witness :
    0 < (splitBuffer [5] PACKET_SIZE PACKET_SIZE).length ∧
      (processBytes (initTransfer [102] [5])
          (CRC16req :: (List.replicate 1 ACK ++ [CA]))).result =
        some ⟨[102], 1, min (1 * 1024) 1⟩ :=
  ⟨by decide, (C4_abort_written_bytes_amended [102] [5] 0 (by decide)).1⟩

/-- Claim C5 (amended): for every buffer whose length is not a multiple of
1024, the final data packet is the remaining bytes padded to 1024 bytes with
`0xFF` bytes — not `0x00` as claimed: `splitBuffer` allocates its chunks
with `Buffer.alloc(size, 0xff)`. -/
theorem C5_final_chunk_padding_amended (buffer : List Nat)
    (h : buffer.length % 1024 ≠ 0) :
    (splitBuffer buffer PACKET_SIZE PACKET_SIZE).getLast? =
      some (buffer.drop (1024 * (buffer.length / 1024)) ++
        List.replicate (1024 - buffer.length % 1024) 0xff) := by
  show (splitBuffer buffer 1024 1024).getLast? = _
  unfold splitBuffer
  by_cases hbig : 1024 < buffer.length
  · rw [if_pos hbig]
    exact splitGo_1024_getLast buffer.length buffer le_rfl (by omega) h
  · rw [if_neg hbig]
    have hifn : (if (1024 : Nat) = 0 then 1024 else 1024) = 1024 := rfl
    rw [hifn, List.getLast?_singleton]
    unfold mkChunk
    rw [List.take_of_length_le (by omega)]
    have e1 : 1024 * (buffer.length / 1024) = 0 := by omega
    have e2 : buffer.length % 1024 = buffer.length := by omega
    rw [e1, e2, List.drop_zero]

/-- Claim C5 counterexample: for the 1-byte buffer `[0xAB]` the single
(final) data packet is `0xAB` followed by 1023 bytes of `0xFF`, not 1023
zero bytes. -/
theorem C5_padding_counterexample :
    (splitBuffer [0xab] PACKET_SIZE PACKET_SIZE).getLast? =
        some (0xab :: List.replicate 1023 0xff) ∧
      (splitBuffer [0xab] PACKET_SIZE PACKET_SIZE).getLast? ≠
        some (0xab :: List.replicate 1023 0x00) := by
  have h1 : (splitBuffer [0xab] PACKET_SIZE PACKET_SIZE).getLast? =
      some (0xab :: List.replicate 1023 0xff) := by
    show (splitBuffer [0xab] 1024 1024).getLast? = _
    unfold splitBuffer
    rw [if_neg (by norm_num)]
    unfold mkChunk
    rw [List.getLast?_singleton, List.take_of_length_le (by norm_num)]
    rfl
  refine ⟨h1, ?_⟩
  rw [h1]
  intro hcontra
  have h2 := Option.some.inj hcontra
  have h3 : List.replicate 1023 (0xff : Nat) = List.replicate 1023 0x00 :=
    (List.cons.inj h2).2
  rw [show (1023 : Nat) = 1022 + 1 from by norm_num, List.replicate_succ,
    List.replicate_succ] at h3
  have h4 := (List.cons.inj h3).1
  norm_num at h4

/-- Claim C5 witness at the 1-byte buffer `[0xAB]`. -/
theorem C5_final_chunk_padding_witness :
    ([0xab] : List Nat).length % 1024 ≠ 0 ∧
      (splitBuffer [0xab] PACKET_SIZE PACKET_SIZE).getLast? =
        some (([0xab] : List Nat).drop (1024 * (([0xab] : List Nat).length / 1024)) ++
          List.replicate (1024 - ([0xab] : List Nat).length % 1024) 0xff) :=
  ⟨by decide, C5_final_chunk_padding_amended [0xab] (by decide)⟩

/-- Claim C6: while a packet is outstanding (`seq < queue.length`, promise
unresolved), any number `n` of consecutive `NAK` bytes leaves every state
field unchanged — same sequence number, same flags, listener still installed,
promise still pending — and appends exactly `n` byte-for-byte identical
retransmissions of the current packet to the send log; there is no
retry cutoff. -/
theorem C6_nak_retransmit (fn : List Nat) (Q : List (List Nat)) (K w i : Nat)
    (ses snd la : Bool) (res : Option YResult) (log : List (List Nat))
    (h : i < Q.length) (n : Nat) :
    processBytes (⟨fn, Q, K, w, i, ses, snd, false, la, res, log⟩ : YState)
        (List.replicate n NAK) =
      ⟨fn, Q, K, w, i, ses, snd, false, la, res,
        log ++ List.replicate n (mkPacket i (Q.get ⟨i, h⟩))⟩ :=
  processBytes_nak_run fn Q K w i ses snd la res h n log

/-- Claim C6 witness: two consecutive NAKs on a one-packet queue. -/
theorem C6_nak_retransmit_witness :
    0 < ([[7, 8]] : List (List Nat)).length ∧
      processBytes (⟨[1], [[7, 8]], 2, 0, 0, true, true, false, true, none, []⟩ : YState)
          (List.replicate 2 NAK) =
        ⟨[1], [[7, 8]], 2, 0, 0, true, true, false, true, none,
          [] ++ List.replicate 2 (mkPacket 0 ([[7, 8]].get ⟨0, by decide⟩))⟩ :=
  ⟨by decide, C6_nak_retransmit [1] [[7, 8]] 2 0 0 true true true none [] (by decide) 2⟩

/-- Claim C7 counterexample: `disconnect()` emits `PERIPHERAL_DISCONNECTED`
unconditionally on every call, so calling it twice in a row produces two
events, not the claimed exactly one. -/
theorem C7_disconnect_twice_counterexample :
    ¬((disconnect (disconnect ⟨true, true, false, []⟩)).events.count
        SEvent.peripheralDisconnected = 1) := by decide

/-- Claim C7 (amended): each `disconnect()` call emits exactly one
`PERIPHERAL_DISCONNECTED` event (so two calls emit two), while
`handleDisconnectError` is a no-op on a session that is not Connected — in
particular calling it right after a `disconnect()` adds no further event, so
duplicate connection-loss signals collapse. -/
theorem C7_disconnect_events_amended (s : WState) :
    (disconnect s).events = s.events ++ [SEvent.peripheralDisconnected] ∧
      (s.connected = false → handleDisconnectError s = s) ∧
      handleDisconnectError (disconnect s) = disconnect s := by
  refine ⟨rfl, ?_, ?_⟩
  · intro h
    unfold handleDisconnectError
    rw [h]
    simp
  · unfold handleDisconnectError
    rw [if_pos (show (disconnect s).connected = false from rfl)]

/-- Claim C7 witness: `handleDisconnectError` on a disconnected session is a
no-op. -/
theorem C7_disconnect_events_witness :
    handleDisconnectError (⟨false, true, true, []⟩ : WState) = ⟨false, true, true, []⟩ :=
  (C7_disconnect_events_amended ⟨false, true, true, []⟩).2.1 rfl

/-- Claim C8: writing `"a1b2"` with hex encoding writes exactly the bytes
`[0xA1, 0xB2]` (as a single chunk), and every message that — after
whitespace removal — has odd length or contains a non-hex-digit character is
rejected with an `EncodingError` before the writer is acquired and before
any byte reaches the transport (the `encodingError` outcome carries no chunk
writes by construction). -/
theorem C8_hex_write (msg : List Char) :
    writeHex ['a', '1', 'b', '2'] = WriteResult.written [[0xa1, 0xb2]] ∧
      (((msg.filter fun c => !isJsWhitespace c).length % 2 = 1 ∨
          ∃ c ∈ msg.filter fun c => !isJsWhitespace c, isHexDigitByte c = false) →
        writeHex msg = WriteResult.encodingError) := by
  constructor
  · decide
  · intro hbad
    unfold writeHex
    rw [if_neg]
    intro hcond
    obtain ⟨hne, hall, heven⟩ := hcond
    rcases hbad with hodd | ⟨c, hc, hbadc⟩
    · omega
    · rw [List.all_eq_true] at hall
      have hcontr := hall c hc
      rw [hbadc] at hcontr
      exact Bool.false_ne_true hcontr

/-- Claim C8 witness: the odd-length message `"a1b"` is rejected. -/
theorem C8_hex_write_witness :
    (((['a', '1', 'b'].filter fun c => !isJsWhitespace c).length % 2 = 1 ∨
        ∃ c ∈ ['a', '1', 'b'].filter fun c => !isJsWhitespace c,
          isHexDigitByte c = false)) ∧
      writeHex ['a', '1', 'b'] = WriteResult.encodingError :=
  ⟨Or.inl (by decide), (C8_hex_write ['a', '1', 'b']).2 (Or.inl (by decide))⟩

/-- Claim C9: `WebSerial.write` slices an `n`-byte payload into
`ceil(n/255)` sequential chunk writes — the issue order is the list order of
`writeChunks` — whose sizes are all 255 except a final chunk of `n mod 255`
bytes when nonzero, and whose concatenation is exactly the payload; in
particular a 600-byte payload is written as three chunks of 255, 255 and 90
bytes in that order. -/
theorem C9_write_chunking (data : List Nat) :
    (writeChunks data).map List.length =
      List.replicate (data.length / 255) 255 ++
        (if data.length % 255 = 0 then [] else [data.length % 255]) ∧
    (writeChunks data).flatten = data ∧
    (writeChunks data).length = (data.length + 254) / 255 ∧
    (data.length = 600 → (writeChunks data).map List.length = [255, 255, 90]) := by
  refine ⟨writeChunks_sizes data, writeChunks_flatten data, ?_, ?_⟩
  · have h := congrArg List.length (writeChunks_sizes data)
    simp only [List.length_map, List.length_append, List.length_replicate] at h
    by_cases hm : data.length % 255 = 0
    · simp only [hm, if_true, List.length_nil] at h
      omega
    · simp only [hm, if_false, List.length_cons, List.length_nil] at h
      omega
  · intro h600
    rw [writeChunks_sizes data, h600]
    decide

/-- Claim C9 witness: a concrete 600-byte payload. -/
theorem C9_write_chunking_witness :
    (List.replicate 600 (0 : Nat)).length = 600 ∧
      (writeChunks (List.replicate 600 0)).map List.length = [255, 255, 90] :=
  ⟨by rw [List.length_replicate],
    (C9_write_chunking (List.replicate 600 0)).2.2.2 (by rw [List.length_replicate])⟩

/-- Claim C10: the transfer promise resolves at most once.  Once `close` has
run, `finished` is set and the data listener removed (for every state), and
on a finished state every subsequently processed byte sequence leaves the
state — in particular the resolved `result` — completely unchanged, and a
further `close` does not overwrite the result. -/
theorem C10_resolve_once (s t : YState) (data : List Nat) (h : s.finished = true) :
    processBytes s data = s ∧
      (close s).result = s.result ∧
      (close t).finished = true ∧
      (close t).listenerActive = false := by
  have hcl : (close t).finished = true ∧ (close t).listenerActive = false := by
    unfold close
    by_cases hf : t.finished = true
    · rw [if_pos hf]
      exact ⟨hf, rfl⟩
    · rw [if_neg hf]
      exact ⟨rfl, rfl⟩
  exact ⟨processBytes_of_finished data s h, by rw [close_of_finished s h], hcl.1, hcl.2⟩

/-- Claim C10 witness: a finished state absorbs any further control bytes. -/
theorem C10_resolve_once_witness :
    ((⟨[], [], 0, 0, 0, false, false, true, false, some ⟨[], 0, 0⟩, []⟩ : YState).finished
        = true) ∧
      processBytes (⟨[], [], 0, 0, 0, false, false, true, false, some ⟨[], 0, 0⟩, []⟩ : YState)
          [CRC16req, ACK, NAK, CA, 0] =
        ⟨[], [], 0, 0, 0, false, false, true, false, some ⟨[], 0, 0⟩, []⟩ :=
  ⟨rfl,
    (C10_resolve_once ⟨[], [], 0, 0, 0, false, false, true, false, some ⟨[], 0, 0⟩, []⟩
      ⟨[], [], 0, 0, 0, false, false, true, false, some ⟨[], 0, 0⟩, []⟩
      [CRC16req, ACK, NAK, CA, 0] rfl).1⟩

end ScratchVM
